import Mathlib

/-!
Verification development for the agent tool-execution and change-safety
mediation layer: the pattern-based safety classifier (safety-checker.ts),
the pre-apply change validator (change-validator.ts), and the interception
wrapper plus step-bounded orchestration loop of the agent base class.

JavaScript regular-expression tests are embedded by a small derivative-based
matcher over an explicit regex datatype; `rxTest` models `RegExp.test`
(a match may start at any position), `matchAtStart` models a `^`-anchored
test.  Machine strings are modeled as Lean `String`s (lists of characters).
-/

/-- Regular expressions over characters, with decidable character classes. -/
inductive Rx where
  | emp : Rx
  | eps : Rx
  | ch (p : Char → Bool) : Rx
  | alt (a b : Rx) : Rx
  | cat (a b : Rx) : Rx
  | star (a : Rx) : Rx

/-- Does the regex accept the empty string? -/
def Rx.nullable : Rx → Bool
  | .emp => false
  | .eps => true
  | .ch _ => false
  | .alt a b => a.nullable || b.nullable
  | .cat a b => a.nullable && b.nullable
  | .star _ => true

/-- Smart alternative constructor pruning the empty language. -/
def Rx.altS : Rx → Rx → Rx
  | .emp, b => b
  | a, .emp => a
  | a, b => .alt a b

/-- Smart concatenation constructor pruning empty/epsilon factors. -/
def Rx.catS : Rx → Rx → Rx
  | .emp, _ => .emp
  | _, .emp => .emp
  | .eps, b => b
  | a, .eps => a
  | a, b => .cat a b

/-- Brzozowski derivative of a regex with respect to one character. -/
def Rx.deriv : Rx → Char → Rx
  | .emp, _ => .emp
  | .eps, _ => .emp
  | .ch p, c => if p c then .eps else .emp
  | .alt a b, c => Rx.altS (a.deriv c) (b.deriv c)
  | .cat a b, c =>
      if a.nullable then Rx.altS (Rx.catS (a.deriv c) b) (b.deriv c)
      else Rx.catS (a.deriv c) b
  | .star a, c => Rx.catS (a.deriv c) (.star a)

/-- Does some prefix of the input (possibly empty) belong to the regex?
This models a JavaScript regex test anchored at the current position. -/
def matchAtStart (r : Rx) : List Char → Bool
  | [] => r.nullable
  | c :: rest => r.nullable || matchAtStart (r.deriv c) rest

/-- `RegExp.prototype.test`: a match may start at any position. -/
def rxTest (r : Rx) : List Char → Bool
  | [] => matchAtStart r []
  | c :: rest => matchAtStart r (c :: rest) || rxTest r rest

/-- Single literal character. -/
def lit1 (c : Char) : Rx := .ch (fun x => x == c)

/-- Single character, case-insensitive (the `i` regex flag). -/
def ilit1 (c : Char) : Rx := .ch (fun x => x.toLower == c.toLower)

/-- Literal string. -/
def rlit (s : String) : Rx := s.data.foldr (fun c r => Rx.cat (lit1 c) r) Rx.eps

/-- Literal string, case-insensitive. -/
def irlit (s : String) : Rx := s.data.foldr (fun c r => Rx.cat (ilit1 c) r) Rx.eps

/-- Concatenation of a list of regexes. -/
def catRx (l : List Rx) : Rx := l.foldr Rx.cat Rx.eps

/-- JavaScript `\s` whitespace class (ASCII portion). -/
def isJsWs (c : Char) : Bool :=
  c == ' ' || c == '\t' || c == '\n' || c == '\r' || c == '\x0b' || c == '\x0c'

/-- `\s` character class. -/
def wsChar : Rx := .ch isJsWs

/-- `\s*`. -/
def wsStar : Rx := .star wsChar

/-- `\s+`. -/
def wsPlus : Rx := .cat wsChar wsStar

/-- JavaScript `.`: any character except line terminators. -/
def dotRx : Rx := .ch (fun c => !(c == '\n' || c == '\r'))

/-- `.*`. -/
def dotStar : Rx := .star dotRx

/-- `r?`. -/
def optRx (r : Rx) : Rx := .alt r .eps

/-- `r{n,}`: at least `n` repetitions. -/
def repAtLeast : Nat → Rx → Rx
  | 0, r => .star r
  | n + 1, r => .cat r (repAtLeast n r)

/-- The apostrophe character `'`. -/
def squote : Char := Char.ofNat 39

/-- The double-quote character. -/
def dquote : Char := Char.ofNat 34

/-- The backtick character. -/
def btick : Char := Char.ofNat 96

/-- `['"]`: single or double quote. -/
def quoteClass : Rx := .ch (fun c => c == squote || c == dquote)

/-- `[^'"]`: anything but a quote. -/
def nonQuote : Rx := .ch (fun c => !(c == squote || c == dquote))

/-- `[:=]`. -/
def colonEq : Rx := .ch (fun c => c == ':' || c == '=')

/-- `[_-]?`. -/
def optUndDash : Rx := optRx (.ch (fun c => c == '_' || c == '-'))

/-- `\d`. -/
def digitRx : Rx := .ch (fun c => c.isDigit)

/-- Severity levels of a safety verdict. -/
inductive Severity where
  | warning : Severity
  | error : Severity
  | critical : Severity
deriving DecidableEq, Repr

/-- `SafetyCheckResult` from safety-checker.ts. -/
structure SafetyCheckResult where
  safe : Bool
  reason : Option String := none
  severity : Option Severity := none
deriving DecidableEq, Repr

/-- One entry of `HARMFUL_PATTERNS`. -/
structure HarmfulPattern where
  rx : Rx
  description : String
  severity : Severity

/-- `HARMFUL_PATTERNS` from safety-checker.ts, in source order. -/
def HARMFUL_PATTERNS : List HarmfulPattern := [
  -- eval\s*\(
  ⟨catRx [rlit "eval", wsStar, lit1 '('], "eval() can execute arbitrary code", .critical⟩,
  -- new\s+Function\s*\(
  ⟨catRx [rlit "new", wsPlus, rlit "Function", wsStar, lit1 '('],
    "new Function() can execute arbitrary code", .critical⟩,
  -- child_process\.exec\s*\(
  ⟨catRx [rlit "child_process.exec", wsStar, lit1 '('],
    "exec() with unsanitized input", .error⟩,
  -- \.\.\/\.\.\/\.\.
  ⟨rlit "../../..", "Path traversal attack pattern", .critical⟩,
  -- \/etc\/passwd
  ⟨rlit "/etc/passwd", "Sensitive system file access", .critical⟩,
  -- \/etc\/shadow
  ⟨rlit "/etc/shadow", "Sensitive system file access", .critical⟩,
  -- password\s*[:=]\s*['"][^'"]{8,}['"]
  ⟨catRx [rlit "password", wsStar, colonEq, wsStar, quoteClass, repAtLeast 8 nonQuote, quoteClass],
    "Hardcoded password detected", .critical⟩,
  -- api[_-]?key\s*[:=]\s*['"][^'"]{16,}['"]
  ⟨catRx [rlit "api", optUndDash, rlit "key", wsStar, colonEq, wsStar, quoteClass,
      repAtLeast 16 nonQuote, quoteClass],
    "Hardcoded API key detected", .critical⟩,
  -- secret\s*[:=]\s*['"][^'"]{16,}['"]
  ⟨catRx [rlit "secret", wsStar, colonEq, wsStar, quoteClass, repAtLeast 16 nonQuote, quoteClass],
    "Hardcoded secret detected", .critical⟩,
  -- private[_-]?key\s*[:=]\s*['"]-----BEGIN
  ⟨catRx [rlit "private", optUndDash, rlit "key", wsStar, colonEq, wsStar, quoteClass,
      rlit "-----BEGIN"],
    "Private key in code", .critical⟩,
  -- 0\.0\.0\.0.*listen
  ⟨catRx [rlit "0.0.0.0", dotStar, rlit "listen"], "Listening on all interfaces", .warning⟩,
  -- `\s*SELECT.*\$\{
  ⟨catRx [lit1 btick, wsStar, rlit "SELECT", dotStar, lit1 '$', lit1 (Char.ofNat 123)],
    "Potential SQL injection in template literal", .error⟩,
  -- '\s*\+\s*.*\+\s*'.*(?:SELECT|INSERT|UPDATE|DELETE)  (case-insensitive)
  ⟨catRx [lit1 squote, wsStar, lit1 '+', wsStar, dotStar, lit1 '+', wsStar, lit1 squote, dotStar,
      Rx.alt (irlit "SELECT") (Rx.alt (irlit "INSERT") (Rx.alt (irlit "UPDATE") (irlit "DELETE")))],
    "Potential SQL injection via concatenation", .error⟩,
  -- innerHTML\s*=\s*[^'"]+(?:req|user|input|param)
  ⟨catRx [rlit "innerHTML", wsStar, lit1 '=', wsStar, Rx.cat nonQuote (.star nonQuote),
      Rx.alt (rlit "req") (Rx.alt (rlit "user") (Rx.alt (rlit "input") (rlit "param")))],
    "Potential XSS via innerHTML", .error⟩,
  -- dangerouslySetInnerHTML
  ⟨rlit "dangerouslySetInnerHTML", "Using dangerouslySetInnerHTML", .warning⟩
]

/-- `PROTECTED_FILES` from safety-checker.ts. -/
def PROTECTED_FILES : List String := [
  ".env",
  ".env.local",
  ".env.production",
  ".env.development",
  "credentials.json",
  "secrets.json",
  "service-account.json",
  ".git/config",
  ".npmrc",
  ".yarnrc"
]

/-- `PROTECTED_PATH_PATTERNS` from safety-checker.ts, each entry as the
decidable test the corresponding JS regex performs on a path
(the first three are `^`-anchored). -/
def PROTECTED_PATH_PATTERNS : List (String → Bool) := [
  fun s => matchAtStart (rlit ".ssh/") s.data,
  fun s => matchAtStart (rlit ".aws/") s.data,
  fun s => matchAtStart (rlit ".gcloud/") s.data,
  fun s => rxTest (catRx [irlit "secret", optRx (ilit1 's'), lit1 '/']) s.data,
  fun s => rxTest (catRx [irlit "credential", optRx (ilit1 's'), lit1 '/']) s.data,
  fun s => rxTest (catRx [irlit "private", optUndDash, irlit "key", optRx (ilit1 's'), lit1 '/']) s.data
]

/-- `SENSITIVE_TOOLS` from safety-checker.ts. -/
def SENSITIVE_TOOLS : List String := [
  "writeFile",
  "gitCommit",
  "gitPush",
  "createPullRequest",
  "npmAuditFix",
  "npmUpdate"
]

/-- `suffix` is a suffix of `s` (String.prototype.endsWith). -/
def strEndsWith (s suffix : String) : Bool := suffix.data.isSuffixOf s.data

/-- `SafetyChecker.checkProtectedFile`. -/
def checkProtectedFile (filePath : String) : SafetyCheckResult :=
  match PROTECTED_FILES.find? (fun p => filePath == p || strEndsWith filePath ("/" ++ p)) with
  | some _ =>
      { safe := false
        reason := some ("Cannot modify protected file: " ++ filePath)
        severity := some .critical }
  | none =>
      match PROTECTED_PATH_PATTERNS.find? (fun f => f filePath) with
      | some _ =>
          { safe := false
            reason := some ("Cannot modify files in protected path: " ++ filePath)
            severity := some .critical }
      | none => { safe := true }

/-- First matching harmful pattern, returning its description and severity
(the `for … if pattern.test … return` loop in the source). -/
def findHarmful : List HarmfulPattern → List Char → Option (String × Severity)
  | [], _ => none
  | p :: ps, s => if rxTest p.rx s then some (p.description, p.severity) else findHarmful ps s

/-- JavaScript values passed as tool arguments / returned as tool results,
restricted to the JSON-representable fragment (numbers modeled as integers). -/
inductive Json where
  | null : Json
  | bool (b : Bool) : Json
  | num (n : Int) : Json
  | str (s : String) : Json
  | arr (elems : List Json) : Json
  | obj (fields : List (String × Json)) : Json

/-- JavaScript truthiness of a value. -/
def jsTruthy : Json → Bool
  | .null => false
  | .bool b => b
  | .num n => !(n == 0)
  | .str s => !(s == "")
  | .arr _ => true
  | .obj _ => true

/-- Hexadecimal digit (lowercase), for `\u00XX` escapes. -/
def hexDigit (n : Nat) : Char :=
  if n < 10 then Char.ofNat (48 + n) else Char.ofNat (87 + n)

/-- JSON string escaping of one character (as `JSON.stringify` does). -/
def escChar (c : Char) : List Char :=
  if c == dquote then ['\\', dquote]
  else if c == '\\' then ['\\', '\\']
  else if c == '\x08' then ['\\', 'b']
  else if c == '\x0c' then ['\\', 'f']
  else if c == '\n' then ['\\', 'n']
  else if c == '\r' then ['\\', 'r']
  else if c == '\t' then ['\\', 't']
  else if c.toNat < 32 then
    ['\\', 'u', '0', '0', hexDigit (c.toNat / 16), hexDigit (c.toNat % 16)]
  else [c]

/-- A JSON string literal with quotes and escapes. -/
def jsonQuote (s : String) : String :=
  String.mk ('"' :: (s.data.foldr (fun c acc => escChar c ++ acc) ['"']))

/-- Comma-join. -/
def joinComma : List String → String
  | [] => ""
  | [x] => x
  | x :: y :: rest => x ++ "," ++ joinComma (y :: rest)

/-- `JSON.stringify`, with a structural fuel parameter bounding the nesting
depth (the top-level wrapper passes a fuel far larger than any value
occurring in practice; `JSON.stringify` itself rejects cyclic values). -/
def stringifyFuel : Nat → Json → String
  | 0, _ => ""
  | _ + 1, .null => "null"
  | _ + 1, .bool b => if b then "true" else "false"
  | _ + 1, .num n => toString n
  | _ + 1, .str s => jsonQuote s
  | n + 1, .arr xs => "[" ++ joinComma (xs.map (stringifyFuel n)) ++ "]"
  | n + 1, .obj fs =>
      "\x7b" ++ joinComma (fs.map (fun kv => jsonQuote kv.1 ++ ":" ++ stringifyFuel n kv.2)) ++ "\x7d"

/-- `JSON.stringify`. -/
def Json.stringify (j : Json) : String := stringifyFuel 1000 j

/-- Property lookup on a value (`args.path`): `none` models `undefined`. -/
def objLookup (j : Json) (k : String) : Option Json :=
  match j with
  | .obj fs => fs.lookup k
  | _ => none

/-- `(args.path || args.filePath)` followed by the `if (filePath)` truthiness
guard, yielding the path string handed to `checkProtectedFile`.  The model
covers string-valued path arguments (with any truthy non-string value the
source would fail inside the string operations of `checkProtectedFile`). -/
def getPathArg (args : Json) : Option String :=
  let v : Option Json :=
    match objLookup args "path" with
    | some p => if jsTruthy p then some p else objLookup args "filePath"
    | none => objLookup args "filePath"
  match v with
  | some (.str s) => if s == "" then none else some s
  | _ => none

/-- `AgentContext` (fields relevant to this core; the safety checker takes
it as a parameter but never reads it). -/
structure AgentContext where
  workingDir : String
  repoOwner : String := ""
  repoName : String := ""
  prNumber : Option Nat := none
  issueNumber : Option Nat := none
deriving DecidableEq, Repr

/-- `SafetyChecker.checkToolCall`. -/
def checkToolCall (toolName : String) (args : Json) (ctx : AgentContext) : SafetyCheckResult :=
  if SENSITIVE_TOOLS.contains toolName then
    let argsStr := Json.stringify args
    match findHarmful HARMFUL_PATTERNS argsStr.data with
    | some (desc, sev) =>
        { safe := false
          reason := some (desc ++ " detected in tool arguments")
          severity := some sev }
    | none =>
        match getPathArg args with
        | some fp =>
            let pc := checkProtectedFile fp
            if pc.safe then { safe := true } else pc
        | none => { safe := true }
  else { safe := true }

/-- JavaScript truthiness filter on an optional string field
(`undefined` and the empty string are falsy). -/
def strTruthy : Option String → Option String
  | some s => if s == "" then none else some s
  | none => none

/-- Case-insensitive prefix test. -/
def isPrefixCI : List Char → List Char → Bool
  | [], _ => true
  | _ :: _, [] => false
  | a :: as, b :: bs => a.toLower == b.toLower && isPrefixCI as bs

/-- Non-overlapping, case-insensitive occurrence count of a literal needle,
scanning left to right (the length of `s.match(/needle/gi) || []`).
The first argument is the number of characters still to skip after a match. -/
def countCISkip (needle : List Char) : Nat → List Char → Nat
  | _, [] => 0
  | 0, c :: rest =>
      if isPrefixCI needle (c :: rest)
      then 1 + countCISkip needle (needle.length - 1) rest
      else countCISkip needle 0 rest
  | k + 1, _ :: rest => countCISkip needle k rest

/-- Occurrence count (see `countCISkip`). -/
def countCI (needle hay : List Char) : Nat := countCISkip needle 0 hay

/-- The `securityPatterns` of `checkSecurityRegression`: literal needle
(in lowercase; all the source regexes carry the `gi` flags) and display name. -/
def securityPatterns : List (String × String) := [
  ("validate", "validation"),
  ("sanitize", "sanitization"),
  ("escape", "escaping"),
  ("authenticate", "authentication"),
  ("authorize", "authorization"),
  ("csrf", "CSRF protection"),
  ("xss", "XSS protection"),
  ("helmet", "security headers"),
  ("ratelimit", "rate limiting")
]

/-- `SafetyChecker.checkSecurityRegression`. -/
def checkSecurityRegression (original modified : String) : SafetyCheckResult :=
  match securityPatterns.find? (fun p =>
      let o := countCI p.1.data original.data
      let m := countCI p.1.data modified.data
      decide (0 < o) && decide (m < o)) with
  | some (_, name) =>
      { safe := false
        reason := some ("Potential security regression: " ++ name ++ " code was reduced or removed")
        severity := some .warning }
  | none => { safe := true }

/-- Types of a proposed change. -/
inductive ChangeType where
  | create : ChangeType
  | modify : ChangeType
  | delete : ChangeType
deriving DecidableEq, Repr

/-- Risk levels of a proposed change. -/
inductive RiskLevel where
  | low : RiskLevel
  | medium : RiskLevel
  | high : RiskLevel
  | critical : RiskLevel
deriving DecidableEq, Repr

/-- `ProposedChange` from agents/types.ts. -/
structure ProposedChange where
  filePath : String
  changeType : ChangeType
  originalContent : Option String := none
  newContent : Option String := none
  diff : Option String := none
  description : String := ""
  riskLevel : RiskLevel := .medium
deriving DecidableEq, Repr

/-- `SafetyChecker.checkChange`. -/
def checkChange (change : ProposedChange) : SafetyCheckResult :=
  let pc := checkProtectedFile change.filePath
  if pc.safe then
    let harm : SafetyCheckResult :=
      match strTruthy change.newContent with
      | some nc =>
          match findHarmful HARMFUL_PATTERNS nc.data with
          | some (desc, sev) =>
              { safe := false
                reason := some (desc ++ " in proposed change")
                severity := some sev }
          | none => { safe := true }
      | none => { safe := true }
    if harm.safe then
      match change.changeType, strTruthy change.originalContent, strTruthy change.newContent with
      | .modify, some oc, some nc => checkSecurityRegression oc nc
      | _, _, _ => { safe := true }
    else harm
  else pc

/-- ASCII lowercasing (JS `toLowerCase` on the character sets involved). -/
def lowerStr (s : String) : String := String.mk (s.data.map Char.toLower)

/-- The `harmfulRequestPatterns` of `validateIssueForAutoFix`, in source order. -/
def harmfulRequestPatterns : List (Rx × String) := [
  (catRx [irlit "bypass", dotStar, irlit "auth"], "Request to bypass authentication"),
  (catRx [irlit "disable", dotStar, irlit "security"], "Request to disable security"),
  (catRx [irlit "remove", dotStar, irlit "validation"], "Request to remove validation"),
  (catRx [irlit "add", dotStar, irlit "backdoor"], "Request to add backdoor"),
  (catRx [irlit "expose", dotStar, irlit "secret"], "Request to expose secrets"),
  (catRx [irlit "skip", dotStar, irlit "check"], "Request to skip checks"),
  (catRx [irlit "hardcode", dotStar, irlit "password"], "Request to hardcode passwords"),
  (catRx [irlit "remove", dotStar, irlit "auth"], "Request to remove authentication"),
  (catRx [irlit "disable", dotStar, irlit "csrf"], "Request to disable CSRF protection"),
  (catRx [irlit "ignore", dotStar, irlit "ssl"], "Request to ignore SSL")
]

/-- First matching harmful-request pattern (the `for … if … return` loop). -/
def findHarmfulRequest : List (Rx × String) → List Char → Option String
  | [], _ => none
  | p :: ps, s => if rxTest p.1 s then some p.2 else findHarmfulRequest ps s

/-- The `codeIndicators` of `validateIssueForAutoFix`, in source order. -/
def codeIndicators : List Rx := [
  irlit "error", irlit "bug", irlit "crash", irlit "exception",
  irlit "fix", irlit "broken",
  catRx [irlit "doesn", optRx (lit1 squote), irlit "t work"],
  irlit "fails",
  irlit "undefined", irlit "null", irlit "NaN",
  catRx [irlit "line ", digitRx, .star digitRx],
  irlit ".ts", irlit ".js", irlit "function",
  irlit "return", irlit "import", irlit "export"
]

/-- `SafetyChecker.validateIssueForAutoFix`. -/
def validateIssueForAutoFix (title body : String) : SafetyCheckResult :=
  let combinedText := lowerStr (title ++ " " ++ body)
  match findHarmfulRequest harmfulRequestPatterns combinedText.data with
  | some desc =>
      { safe := false
        reason := some ("Potentially harmful request detected: " ++ desc)
        severity := some .critical }
  | none =>
      if codeIndicators.any (fun r => rxTest r combinedText.data) then
        { safe := true }
      else
        { safe := false
          reason := some "Issue does not appear to be code-related"
          severity := some .warning }

/-- The expected opener for a closer (`pairs` in `checkBrackets`). -/
def expectedOpen (c : Char) : Char :=
  if c == ')' then '(' else if c == ']' then '[' else '\x7b'

/-- Is the character an opening bracket (`opens` in `checkBrackets`)? -/
def isOpenBracket (c : Char) : Bool :=
  c == '(' || c == '[' || c == '\x7b'

/-- Is the character a closing bracket (a key of `pairs`)? -/
def isCloseBracket (c : Char) : Bool :=
  c == ')' || c == ']' || c == '\x7d'

/-- Message for an unmatched closing bracket. -/
def unmatchedMsg (c : Char) (line : Nat) : String :=
  "Unmatched '" ++ Char.toString c ++ "' at line " ++ toString line

/-- Message for an unclosed opening bracket at end of input. -/
def unclosedMsg (c : Char) (line : Nat) : String :=
  "Unclosed '" ++ Char.toString c ++ "' from line " ++ toString line

/-- The per-character state of `ChangeValidator.checkBrackets`: the stack of
open brackets with their lines (most recent at the head) and the
string/comment mode flags. -/
structure BrState where
  stack : List (Char × Nat)
  inString : Bool
  stringChar : Char
  inComment : Bool
  inMulti : Bool
  line : Nat

/-- Outcome of processing one character: immediate failure with a message, or
continuation with the new state (`skip` models the source's `i++` after
`*/`, consuming the next character unprocessed). -/
inductive BrOut where
  | fail (msg : String) : BrOut
  | cont (skip : Bool) (st : BrState) : BrOut

/-- The closing-bracket block of the `checkBrackets` loop: pop the stack and
compare against the closer's expected opener. -/
def closeStep (st : BrState) (c : Char) : BrOut :=
  match st.stack with
  | [] => .fail (unmatchedMsg c st.line)
  | (t, _) :: stack' =>
      if t == expectedOpen c then .cont false { st with stack := stack' }
      else .fail (unmatchedMsg c st.line)

/-- One iteration of the `checkBrackets` character loop: `prev` is the
previously consumed character (`content[i - 1]`), `next` the following one
(`content[i + 1]`).  Branch order follows the source exactly. -/
def bracketsStep (skip : Bool) (st : BrState) (prev : Option Char) (c : Char)
    (next : Option Char) : BrOut :=
  if skip then .cont false st
  else if c == '\n' then
    .cont false { st with inComment := false
                          line := st.line + 1 }
  else if (c == dquote || c == squote || c == btick) && !(prev == some '\\') then
    if !st.inString && !st.inComment && !st.inMulti then
      .cont false { st with inString := true
                            stringChar := c }
    else if st.inString && c == st.stringChar then
      .cont false { st with inString := false }
    else .cont false st
  else if st.inString then .cont false st
  else if c == '/' && next == some '/' then .cont false { st with inComment := true }
  else if c == '/' && next == some '*' then .cont false { st with inMulti := true }
  else if c == '*' && next == some '/' then .cont true { st with inMulti := false }
  else if st.inComment || st.inMulti then .cont false st
  else if isOpenBracket c then .cont false { st with stack := (c, st.line) :: st.stack }
  else if isCloseBracket c then closeStep st c
  else .cont false st

/-- End-of-input check of `checkBrackets`: a leftover opener (the innermost,
at the head of the stack) fails with its character and line. -/
def bracketsEnd (st : BrState) : Option String :=
  match st.stack with
  | [] => none
  | (c, l) :: _ => some (unclosedMsg c l)

/-- The character loop of `ChangeValidator.checkBrackets`: `none` when the
content is bracket-balanced so far, otherwise the failure message. -/
def bracketsLoop (skip : Bool) (prev : Option Char) (st : BrState) :
    List Char → Option String
  | [] => bracketsEnd st
  | c :: rest =>
      match bracketsStep skip st prev c rest.head? with
      | .fail msg => some msg
      | .cont skip' st' => bracketsLoop skip' (some c) st' rest

/-- `ChangeValidator.checkBrackets`: `none` models `{valid: true}`, and
`some msg` models `{valid: false, message: msg}`. -/
def checkBrackets (content : String) : Option String :=
  bracketsLoop false none
    { stack := [], inString := false, stringChar := ' ',
      inComment := false, inMulti := false, line := 1 } content.data

/-- Substring containment (`String.prototype.includes`). -/
def containsSub (hay needle : List Char) : Bool :=
  needle.isPrefixOf hay ||
    match hay with
    | [] => false
    | _ :: t => containsSub t needle

/-- JSON whitespace skip for the syntax checker. -/
def jpSkipWs (cs : List Char) : List Char :=
  cs.dropWhile (fun c => c == ' ' || c == '\t' || c == '\n' || c == '\r')

/-- Is the character a hexadecimal digit? -/
def isHexCh (c : Char) : Bool :=
  c.isDigit || (c.toLower.toNat >= 97 && c.toLower.toNat <= 102)

/-- Is the character a valid single-character JSON escape? -/
def isJsonEsc (c : Char) : Bool :=
  c == dquote || c == '\\' || c == '/' || c == 'b' || c == 'f' ||
    c == 'n' || c == 'r' || c == 't'

/-- Rest of the input after a JSON string literal, given the input just after
its opening quote; `none` when the literal is malformed. -/
def jpString : List Char → Option (List Char)
  | [] => none
  | c :: rest =>
      if c == dquote then some rest
      else if c == '\\' then
        match rest with
        | [] => none
        | e :: rest' =>
            if e == 'u' then
              match rest' with
              | a :: b :: x :: y :: rest'' =>
                  if isHexCh a && isHexCh b && isHexCh x && isHexCh y
                  then jpString rest'' else none
              | _ => none
            else if isJsonEsc e then jpString rest'
            else none
      else if c.toNat < 32 then none
      else jpString rest

/-- Rest of the input after the digits-and-signs part of a JSON number,
given input starting at the number; `none` when malformed. -/
def jpNumber (cs : List Char) : Option (List Char) :=
  let cs := match cs with
    | '-' :: rest => rest
    | rest => rest
  match cs with
  | c :: rest =>
      if c == '0' then some rest
      else if c.isDigit then some (rest.dropWhile (fun d => d.isDigit))
      else none
  | [] => none

/-- Optional fraction part of a JSON number. -/
def jpFrac : List Char → Option (List Char)
  | '.' :: rest =>
      match rest with
      | c :: rest' => if c.isDigit then some (rest'.dropWhile (fun d => d.isDigit)) else none
      | [] => none
  | cs => some cs

/-- Optional exponent part of a JSON number. -/
def jpExp (cs : List Char) : Option (List Char) :=
  match cs with
  | c :: rest =>
      if c == 'e' || c == 'E' then
        let rest := match rest with
          | s :: rest' => if s == '+' || s == '-' then rest' else s :: rest'
          | [] => []
        match rest with
        | d :: rest' => if d.isDigit then some (rest'.dropWhile (fun x => x.isDigit)) else none
        | [] => none
      else some cs
  | [] => some cs

mutual

/-- Rest of the input after one JSON value (recursive-descent syntax checker;
the fuel bounds the recursion and callers pass one larger than the input
length, which every nesting level and element strictly consumes). -/
def jpValue : Nat → List Char → Option (List Char)
  | 0, _ => none
  | fuel + 1, cs =>
      match jpSkipWs cs with
      | [] => none
      | c :: rest =>
          if c == dquote then jpString rest
          else if c == '[' then
            match jpSkipWs rest with
            | ']' :: rest' => some rest'
            | cs' => jpElems fuel cs'
          else if c == '\x7b' then
            match jpSkipWs rest with
            | '\x7d' :: rest' => some rest'
            | cs' => jpMembers fuel cs'
          else if c == 't' then
            if rest.take 3 == ['r', 'u', 'e'] then some (rest.drop 3) else none
          else if c == 'f' then
            if rest.take 4 == ['a', 'l', 's', 'e'] then some (rest.drop 4) else none
          else if c == 'n' then
            if rest.take 3 == ['u', 'l', 'l'] then some (rest.drop 3) else none
          else
            match jpNumber (c :: rest) with
            | some cs' =>
                match jpFrac cs' with
                | some cs'' => jpExp cs''
                | none => none
            | none => none

/-- Array elements after the first `[` (at least one element). -/
def jpElems : Nat → List Char → Option (List Char)
  | 0, _ => none
  | fuel + 1, cs =>
      match jpValue fuel cs with
      | some rest =>
          match jpSkipWs rest with
          | ',' :: rest' => jpElems fuel rest'
          | ']' :: rest' => some rest'
          | _ => none
      | none => none

/-- Object members after the first `\x7b` (at least one member). -/
def jpMembers : Nat → List Char → Option (List Char)
  | 0, _ => none
  | fuel + 1, cs =>
      match jpSkipWs cs with
      | c :: rest =>
          if c == dquote then
            match jpString rest with
            | some rest' =>
                match jpSkipWs rest' with
                | ':' :: rest'' =>
                    match jpValue fuel rest'' with
                    | some rest3 =>
                        match jpSkipWs rest3 with
                        | ',' :: rest4 => jpMembers fuel rest4
                        | '\x7d' :: rest4 => some rest4
                        | _ => none
                    | none => none
                | _ => none
            | none => none
          else none
      | [] => none

end

/-- Does the content parse as JSON (`JSON.parse` succeeds)? -/
def jsonParses (s : String) : Bool :=
  match jpValue (s.data.length + 1) s.data with
  | some rest => jpSkipWs rest == []
  | none => false

/-- After a `[`, scan for a `]` immediately followed by `(\s*)`; returns the
rest of the input after the whole match.  `.*?` cannot cross a line
terminator, and the lazy quantifier makes the engine take the first `]`
whose continuation matches, otherwise swallow it and look further. -/
def scanCloseBr : List Char → Option (List Char)
  | [] => none
  | c :: rest =>
      if c == '\n' || c == '\r' then none
      else if c == ']' then
        match rest with
        | '(' :: rest' =>
            match (rest'.dropWhile isJsWs) with
            | ')' :: rest'' => some rest''
            | _ => scanCloseBr rest
        | _ => scanCloseBr rest
      else scanCloseBr rest

/-- Count of `/\[.*?\]\(\s*\)/g` matches (global, non-overlapping, leftmost).
The fuel is the number of characters still allowed to be consumed; the
top-level wrapper passes the content length. -/
def countEmptyLinksGo : Nat → List Char → Nat
  | 0, _ => 0
  | _ + 1, [] => 0
  | fuel + 1, c :: rest =>
      if c == '[' then
        match scanCloseBr rest with
        | some rest' => 1 + countEmptyLinksGo fuel rest'
        | none => countEmptyLinksGo fuel rest
      else countEmptyLinksGo fuel rest

/-- Count of empty markdown links in the content. -/
def countEmptyLinks (s : String) : Nat := countEmptyLinksGo s.data.length s.data

/-- Exact containment of a single character (`String.prototype.includes`). -/
def containsChar (s : String) (c : Char) : Bool := s.data.contains c

/-- `String.prototype.split('\n')`. -/
def splitNlGo (acc : List Char) : List Char → List String
  | [] => [String.mk acc.reverse]
  | c :: rest =>
      if c == '\n' then String.mk acc.reverse :: splitNlGo [] rest
      else splitNlGo (c :: acc) rest

/-- Split a string on newline characters. -/
def splitNl (s : String) : List String := splitNlGo [] s.data

/-- `String.prototype.trim` (ASCII whitespace). -/
def trimJs (s : String) : String :=
  String.mk (((s.data.dropWhile isJsWs).reverse.dropWhile isJsWs).reverse)

/-- Deduplication keeping first occurrences (`new Set(list)` iteration). -/
def dedupGo (seen : List String) : List String → List String
  | [] => []
  | x :: xs => if seen.contains x then dedupGo seen xs else x :: dedupGo (x :: seen) xs

/-- Deduplicated list of strings in first-occurrence order. -/
def dedupStr (l : List String) : List String := dedupGo [] l

/-- `ChangeValidator.calculateChangeRatio`, kept as the exact pair
(count of lines in exactly one of the two trimmed line sets,
2 × max line count) rather than its floating-point quotient. -/
def changeRatioCounts (original modified : String) : Nat × Nat :=
  let originalLines := splitNl original
  let modifiedLines := splitNl modified
  let originalSet := dedupStr (originalLines.map trimJs)
  let modifiedSet := dedupStr (modifiedLines.map trimJs)
  let changedLines :=
    (modifiedSet.filter (fun l => !(originalSet.contains l))).length +
    (originalSet.filter (fun l => !(modifiedSet.contains l))).length
  (changedLines, 2 * max originalLines.length modifiedLines.length)

/-- `changeRatio > 0.8`, decided in exact rational arithmetic
(`changed / denom > 4 / 5`; the source's double rounding cannot be observed
at the discrete values involved in any claim). -/
def ratioAbove08 (counts : Nat × Nat) : Bool :=
  decide (0 < counts.2) && decide (4 * counts.2 < 5 * counts.1)

/-- `Math.round(changeRatio * 100)` in exact arithmetic
(round half away from zero on the nonnegative quotient). -/
def ratioPercent (counts : Nat × Nat) : Nat :=
  if counts.2 == 0 then 0 else (200 * counts.1 + counts.2) / (2 * counts.2)

/-- `path.extname`: the extension of the basename, empty for dotfiles. -/
def extname (p : String) : String :=
  let base := ((p.data.reverse.takeWhile (fun c => !(c == '/'))).reverse)
  let rev := base.reverse
  let ext := rev.takeWhile (fun c => !(c == '.'))
  match rev.drop ext.length with
  | [] => ""          -- no dot in the basename
  | _ :: before => if before == [] then "" else String.mk ('.' :: ext.reverse)

/-- `path.join(workingDir, filePath)` (no normalization is exercised here). -/
def pathJoin (a b : String) : String := a ++ "/" ++ b

/-- `ValidationResult` from agents/types.ts. -/
structure ValidationResult where
  valid : Bool
  errors : List String
  warnings : List String
deriving DecidableEq, Repr

/-- `ChangeValidator.validateContentForExtension`, as the pair
(errors, warnings).  The source's `Invalid JSON` error carries the
engine-specific parser message; the model uses the source's own fallback
text `parse error`. -/
def validateContentForExtension (content : String) (extension : String) :
    List String × List String :=
  let ext := lowerStr extension
  if ext == ".ts" || ext == ".tsx" || ext == ".js" || ext == ".jsx" then
    let errs :=
      match checkBrackets content with
      | some msg => ["Unbalanced brackets: " ++ msg]
      | none => []
    let w1 :=
      if containsSub content.data ("console.log".data) &&
         !(containsSub content.data ("// DEBUG".data))
      then ["Console.log found - consider removing before commit"] else []
    let todoCount := countCI ("todo".data) content.data
    let w2 := if 0 < todoCount then [toString todoCount ++ " TODO comment(s) found"] else []
    (errs, w1 ++ w2)
  else if ext == ".json" then
    (if jsonParses content then [] else ["Invalid JSON: parse error"], [])
  else if ext == ".yml" || ext == ".yaml" then
    (if containsChar content '\t' then ["YAML files should use spaces, not tabs"] else [], [])
  else if ext == ".md" then
    let n := countEmptyLinks content
    ([], if 0 < n then [toString n ++ " empty link(s) found"] else [])
  else ([], [])

/-- `ChangeValidator.validate`.  The on-disk repository state is passed
explicitly as `fs`, mapping an absolute path to its content when the file
exists (`access`/`readFile` in the source). -/
def validate (fs : String → Option String) (change : ProposedChange)
    (ctx : AgentContext) : ValidationResult :=
  let fullPath := pathJoin ctx.workingDir change.filePath
  let base : List String × List String :=
    match change.changeType with
    | .create =>
        let e1 := if (fs fullPath).isSome then ["File already exists: " ++ change.filePath] else []
        match strTruthy change.newContent with
        | none => (e1 ++ ["New file must have content"], [])
        | some nc =>
            let cv := validateContentForExtension nc (extname change.filePath)
            (e1 ++ cv.1, cv.2)
    | .modify =>
        let e1 := if (fs fullPath).isNone then ["File does not exist: " ++ change.filePath] else []
        let c2 : List String × List String :=
          match strTruthy change.newContent with
          | none => (["Modified file must have new content"], [])
          | some nc => validateContentForExtension nc (extname change.filePath)
        let c3 : List String × List String :=
          match strTruthy change.originalContent with
          | some oc =>
              match fs fullPath with
              | some currentContent =>
                  if currentContent == oc then ([], [])
                  else ([], ["File has been modified since original content was captured"])
              | none => (["File no longer exists"], [])
          | none => ([], [])
        (e1 ++ c2.1 ++ c3.1, c2.2 ++ c3.2)
    | .delete =>
        let w1 := if (fs fullPath).isNone
                  then ["File to delete does not exist: " ++ change.filePath] else []
        let w2 := if strEndsWith change.filePath ".test.ts" ||
                     strEndsWith change.filePath ".spec.ts" ||
                     strEndsWith change.filePath ".test.js" ||
                     strEndsWith change.filePath ".spec.js"
                  then ["Deleting a test file - ensure this is intentional"] else []
        let e1 := if change.filePath == "package.json" || change.filePath == "tsconfig.json"
                  then ["Cannot delete essential configuration files"] else []
        (e1, w1 ++ w2)
  let sizeW :=
    match strTruthy change.newContent with
    | some nc => if 100000 < nc.data.length
                 then ["Large file change (>100KB) - consider breaking into smaller changes"]
                 else []
    | none => []
  let ratioW :=
    match strTruthy change.originalContent, strTruthy change.newContent with
    | some oc, some nc =>
        let counts := changeRatioCounts oc nc
        if ratioAbove08 counts then
          ["Major file rewrite detected (" ++ toString (ratioPercent counts) ++
            "% changed) - review carefully"]
        else []
    | _, _ => []
  { valid := base.1.length == 0
    errors := base.1
    warnings := base.2 ++ sizeW ++ ratioW }

/-- `ToolCallRecord`: one entry of the session call log
(`{name, args, result}`; `result = none` models `undefined`). -/
structure ToolCallRecord where
  name : String
  args : Json
  result : Option Json

/-- The per-session mutable accumulators of `runAgentLoop`. -/
structure SessionState where
  toolCalls : List ToolCallRecord
  proposedChanges : List Json

/-- A registered capability as the wrapper sees it: its optional `execute`
function (description and input schema are copied through unchanged and
play no role in the dynamics). -/
structure ToolDef where
  execute : Option (Json → Json)

/-- The `proposedChange` extraction of the wrapper:
`result && typeof result === 'object' && 'proposedChange' in result`. -/
def extractProposedChange : Option Json → List Json
  | some (.obj fields) =>
      match fields.lookup "proposedChange" with
      | some pc => [pc]
      | none => []
  | _ => []

/-- Outcome of one wrapped invocation: the value returned to the model, the
updated session state, and the trace of argument values actually passed to
the underlying capability's `execute` (empty when it was never invoked). -/
structure WrapOut where
  result : Option Json
  state : SessionState
  underlyingArgs : List Json

/-- The replaced `execute` of the interception wrapper in
`BaseAgent.runAgentLoop`: safety check, synthetic denial on failure,
otherwise pass-through invocation, call-log append, change extraction. -/
def wrappedExecute (name : String) (tool : ToolDef) (ctx : AgentContext)
    (st : SessionState) (args : Json) : WrapOut :=
  let safetyResult := checkToolCall name args ctx
  if safetyResult.safe then
    match tool.execute with
    | some f =>
        let result := f args
        { result := some result
          state :=
            { toolCalls := st.toolCalls ++ [{ name := name, args := args, result := some result }]
              proposedChanges := st.proposedChanges ++ extractProposedChange (some result) }
          underlyingArgs := [args] }
    | none =>
        { result := none
          state :=
            { toolCalls := st.toolCalls ++ [{ name := name, args := args, result := none }]
              proposedChanges := st.proposedChanges ++ extractProposedChange none }
          underlyingArgs := [] }
  else
    let errorResult :=
      Json.obj [("error", Json.str ("Safety check failed: " ++ safetyResult.reason.getD "undefined"))]
    { result := some errorResult
      state :=
        { st with
          toolCalls := st.toolCalls ++ [{ name := name, args := args, result := some errorResult }] }
      underlyingArgs := [] }

/-- Dispatch the capability calls of one model step, in request order,
each through the interception wrapper. -/
def dispatchCalls (tools : String → ToolDef) (ctx : AgentContext) :
    List (String × Json) → SessionState → SessionState
  | [], st => st
  | (n, a) :: rest, st =>
      dispatchCalls tools ctx rest (wrappedExecute n (tools n) ctx st a).state

/-- Modelled from the spec: the step-bounded orchestration loop of §4.4.
The iteration itself lives in the external model-driver collaborator
(`generateText` with `stopWhen: stepCountIs(maxSteps)`, out of scope per
§1); the source contributes the wrapped capabilities and the budget value.
`plan n` is the list of capability calls the model requests at step `n`
(empty meaning a final answer with no further calls); the loop runs until
the plan is empty or the step budget is exhausted, dispatching each
requested call through the wrapper. -/
def runLoopGo (tools : String → ToolDef) (ctx : AgentContext)
    (plan : Nat → List (String × Json)) : Nat → Nat → SessionState → SessionState
  | 0, _, st => st
  | fuel + 1, step, st =>
      match plan step with
      | [] => st
      | calls => runLoopGo tools ctx plan fuel (step + 1) (dispatchCalls tools ctx calls st)

/-- Modelled from the spec: one orchestration-loop session with the given
step budget, starting from empty accumulators (see `runLoopGo`). -/
def runAgentLoopModel (stepBudget : Nat) (tools : String → ToolDef)
    (ctx : AgentContext) (plan : Nat → List (String × Json)) : SessionState :=
  runLoopGo tools ctx plan stepBudget 0 { toolCalls := [], proposedChanges := [] }

/-- `BaseAgent.maxSteps`: the default step budget of a session. -/
def maxSteps : Nat := 15

/-- Fixture: an agent context for concrete evaluations. -/
def wCtx : AgentContext := { workingDir := "/repo" }

/-- Fixture: arguments naming a protected file. -/
def wArgsEnv : Json := Json.obj [("path", Json.str ".env")]

/-- Fixture: arguments whose serialization matches the eval pattern. -/
def wArgsEval : Json := Json.obj [("content", Json.str "eval (x)")]

/-- Fixture: innocuous arguments. -/
def wArgsPlain : Json := Json.obj [("path", Json.str "src/a.ts")]

/-- Fixture: a capability echoing its arguments. -/
def wToolEcho : ToolDef := ⟨some (fun a => Json.obj [("ok", Json.bool true), ("echo", a)])⟩

/-- Fixture: a capability returning a result carrying a `proposedChange`. -/
def wToolPC : ToolDef := ⟨some (fun _ => Json.obj [("proposedChange", Json.str "pc")])⟩

/-- Fixture: a modify change of a protected file whose content also matches a
harmful pattern of a non-critical severity. -/
def wChangeC2 : ProposedChange :=
  { filePath := ".env", changeType := .modify,
    originalContent := some "a", newContent := some "child_process.exec(x)" }

/-- Fixture: a modify change reducing the `validate` keyword from three
occurrences to one. -/
def wChangeC4 : ProposedChange :=
  { filePath := "src/a.ts", changeType := .modify,
    originalContent := some "validate validate validate", newContent := some "validate" }

/-- Fixture: deletion of `package.json`. -/
def wChangeC5 : ProposedChange := { filePath := "package.json", changeType := .delete }

/-- Fixture: an empty on-disk state. -/
def wFsEmpty : String → Option String := fun _ => none

/-- Fixture: the unbalanced content of the bracket-scanner test property. -/
def wUnbalanced : String := "function f() \x7b return (1; \x7d"

/-- If some pattern in the list tests positive, the first-match scan succeeds. -/
theorem findHarmful_isSome_of_exists (ps : List HarmfulPattern) (s : List Char)
    (h : ∃ p ∈ ps, rxTest p.rx s = true) : (findHarmful ps s).isSome = true := by
  induction ps with
  | nil => rcases h with ⟨p, hmem, _⟩; cases hmem
  | cons q qs ih =>
      rcases h with ⟨p, hmem, htest⟩
      by_cases hq : rxTest q.rx s = true
      · simp [findHarmful, hq]
      · rcases List.mem_cons.mp hmem with rfl | hmem'
        · exact absurd htest hq
        · simpa [findHarmful, hq] using ih ⟨p, hmem', htest⟩

/-- A path hitting the protected-file list (exactly or as a `/`-suffix) or a
protected-path pattern is classified unsafe with critical severity. -/
theorem checkProtectedFile_hit (filePath : String)
    (h : (∃ p ∈ PROTECTED_FILES, filePath = p ∨ strEndsWith filePath ("/" ++ p) = true) ∨
         ∃ f ∈ PROTECTED_PATH_PATTERNS, f filePath = true) :
    (checkProtectedFile filePath).safe = false ∧
    (checkProtectedFile filePath).severity = some Severity.critical := by
  unfold checkProtectedFile
  cases hf : PROTECTED_FILES.find? (fun p => filePath == p || strEndsWith filePath ("/" ++ p)) with
  | some _ => simp
  | none =>
      cases hp : PROTECTED_PATH_PATTERNS.find? (fun f => f filePath) with
      | some _ => simp
      | none =>
          exfalso
          rw [List.find?_eq_none] at hf hp
          rcases h with ⟨p, hmem, hcase⟩ | ⟨f, hmem, hf2⟩
          · have hnp := hf p hmem
            rcases hcase with rfl | hsuf
            · simp at hnp
            · simp [hsuf] at hnp
          · exact (hp f hmem) hf2

/-- For a sensitive tool, a positive first-match scan of the serialized
arguments determines the verdict. -/
theorem checkToolCall_harm (name : String) (args : Json) (ctx : AgentContext)
    (desc : String) (sev : Severity)
    (hs : SENSITIVE_TOOLS.contains name = true)
    (hf : findHarmful HARMFUL_PATTERNS (Json.stringify args).data = some (desc, sev)) :
    checkToolCall name args ctx =
      { safe := false
        reason := some (desc ++ " detected in tool arguments")
        severity := some sev } := by
  have hmem : name ∈ SENSITIVE_TOOLS := by simpa using hs
  simp [checkToolCall, hmem, hf]

/-- C1: if the safety check classifies an invocation unsafe, the wrapped
execute returns the synthetic denial result
`{error: "Safety check failed: <reason>"}`, appends a `{name, args, result}`
record carrying that synthetic result to the session call log, and never
invokes the underlying capability's execute function. -/
theorem c1_unsafe_call_denied (name : String) (tool : ToolDef) (ctx : AgentContext)
    (st : SessionState) (args : Json)
    (h : (checkToolCall name args ctx).safe = false) :
    wrappedExecute name tool ctx st args =
      { result := some (Json.obj [("error",
          Json.str ("Safety check failed: " ++ (checkToolCall name args ctx).reason.getD "undefined"))])
        state := { st with toolCalls := st.toolCalls ++
          [{ name := name
             args := args
             result := some (Json.obj [("error",
               Json.str ("Safety check failed: " ++ (checkToolCall name args ctx).reason.getD "undefined"))]) }] }
        underlyingArgs := [] } := by
  simp [wrappedExecute, h]

set_option maxRecDepth 100000 in
/-- Witness for C1 at a concrete denied invocation: `writeFile` on `.env`. -/
theorem c1_unsafe_call_denied_witness :
    wrappedExecute "writeFile" wToolEcho wCtx ⟨[], []⟩ wArgsEnv =
      { result := some (Json.obj [("error",
          Json.str "Safety check failed: Cannot modify protected file: .env")])
        state :=
          { toolCalls := [{ name := "writeFile"
                            args := wArgsEnv
                            result := some (Json.obj [("error",
                              Json.str "Safety check failed: Cannot modify protected file: .env")]) }]
            proposedChanges := [] }
        underlyingArgs := [] } :=
  (c1_unsafe_call_denied "writeFile" wToolEcho wCtx ⟨[], []⟩ wArgsEnv rfl).trans rfl

/-- C2: a proposed change whose filePath equals a protected-file name, ends
with `/` followed by such a name, or matches a protected-path pattern is
classified by `checkChange` as `safe=false` with `critical` severity,
regardless of its changeType or contents — the protected-path verdict is
exactly the one returned, taking priority over the harmful-content and
regression checks. -/
theorem c2_protected_path_critical (change : ProposedChange)
    (h : (∃ p ∈ PROTECTED_FILES,
            change.filePath = p ∨ strEndsWith change.filePath ("/" ++ p) = true) ∨
         ∃ f ∈ PROTECTED_PATH_PATTERNS, f change.filePath = true) :
    checkChange change = checkProtectedFile change.filePath ∧
    (checkChange change).safe = false ∧
    (checkChange change).severity = some Severity.critical := by
  obtain ⟨hsafe, hsev⟩ := checkProtectedFile_hit change.filePath h
  have heq : checkChange change = checkProtectedFile change.filePath := by
    simp [checkChange, hsafe]
  exact ⟨heq, heq ▸ hsafe, heq ▸ hsev⟩

set_option maxRecDepth 100000 in
/-- Witness for C2: modifying `.env` with content that also matches a
harmful pattern of severity `error`; the critical protected-file verdict
is returned. -/
theorem c2_protected_path_critical_witness :
    checkChange wChangeC2 = checkProtectedFile ".env" ∧
    (checkChange wChangeC2).safe = false ∧
    (checkChange wChangeC2).severity = some Severity.critical :=
  c2_protected_path_critical wChangeC2 (Or.inl ⟨".env", by decide, Or.inl rfl⟩)

/-- C3: for a tool name outside the sensitive-tool list, `checkToolCall`
returns safe for every argument object and context; for a sensitive tool
name, a serialized-arguments match of some harmful pattern yields safe=false,
and a first match at `(desc, sev)` yields exactly that pattern's severity and
description in the verdict. -/
theorem c3_sensitive_first_match :
    (∀ (name : String) (args : Json) (ctx : AgentContext),
       SENSITIVE_TOOLS.contains name = false →
       checkToolCall name args ctx = { safe := true }) ∧
    (∀ (name : String) (args : Json) (ctx : AgentContext) (desc : String) (sev : Severity),
       SENSITIVE_TOOLS.contains name = true →
       findHarmful HARMFUL_PATTERNS (Json.stringify args).data = some (desc, sev) →
       checkToolCall name args ctx =
         { safe := false
           reason := some (desc ++ " detected in tool arguments")
           severity := some sev }) ∧
    (∀ (name : String) (args : Json) (ctx : AgentContext),
       SENSITIVE_TOOLS.contains name = true →
       (∃ p ∈ HARMFUL_PATTERNS, rxTest p.rx (Json.stringify args).data = true) →
       (checkToolCall name args ctx).safe = false) := by
  refine ⟨?_, ?_, ?_⟩
  · intro name args ctx hs
    have hmem : name ∉ SENSITIVE_TOOLS := by simpa using hs
    simp [checkToolCall, hmem]
  · intro name args ctx desc sev hs hf
    exact checkToolCall_harm name args ctx desc sev hs hf
  · intro name args ctx hs hex
    have hsome := findHarmful_isSome_of_exists HARMFUL_PATTERNS (Json.stringify args).data hex
    obtain ⟨⟨desc, sev⟩, hf⟩ := Option.isSome_iff_exists.mp hsome
    rw [checkToolCall_harm name args ctx desc sev hs hf]

set_option maxRecDepth 100000 in
/-- Witness for C3: `readFile` is non-sensitive and always safe; `writeFile`
arguments containing `eval (` are rejected with the first pattern's
description and severity. -/
theorem c3_sensitive_first_match_witness :
    checkToolCall "readFile" wArgsEnv wCtx = { safe := true } ∧
    checkToolCall "writeFile" wArgsEval wCtx =
      { safe := false
        reason := some "eval() can execute arbitrary code detected in tool arguments"
        severity := some Severity.critical } :=
  ⟨c3_sensitive_first_match.1 "readFile" wArgsEnv wCtx rfl,
   c3_sensitive_first_match.2.1 "writeFile" wArgsEval wCtx
     "eval() can execute arbitrary code" Severity.critical rfl rfl⟩

/-- C4: on a modify change with truthy original and new content that passes
the protected-path and harmful-content checks, any security keyword whose
occurrence count is positive in the original and strictly lower in the new
content makes `checkChange` return the regression verdict: safe=false with
warning severity. -/
theorem c4_security_regression_warning (change : ProposedChange) (oc nc : String)
    (hty : change.changeType = ChangeType.modify)
    (hoc : strTruthy change.originalContent = some oc)
    (hnc : strTruthy change.newContent = some nc)
    (hprot : (checkProtectedFile change.filePath).safe = true)
    (hharm : findHarmful HARMFUL_PATTERNS nc.data = none)
    (hreg : ∃ kw ∈ securityPatterns,
       0 < countCI kw.1.data oc.data ∧ countCI kw.1.data nc.data < countCI kw.1.data oc.data) :
    checkChange change = checkSecurityRegression oc nc ∧
    (checkChange change).safe = false ∧
    (checkChange change).severity = some Severity.warning := by
  have heq : checkChange change = checkSecurityRegression oc nc := by
    simp [checkChange, hprot, hnc, hharm, hty, hoc]
  have hver : (checkSecurityRegression oc nc).safe = false ∧
      (checkSecurityRegression oc nc).severity = some Severity.warning := by
    unfold checkSecurityRegression
    cases hfind : securityPatterns.find? (fun p =>
        decide (0 < countCI p.1.data oc.data) &&
        decide (countCI p.1.data nc.data < countCI p.1.data oc.data)) with
    | some q => simp
    | none =>
        exfalso
        rw [List.find?_eq_none] at hfind
        obtain ⟨kw, hmem, h1, h2⟩ := hreg
        have := hfind kw hmem
        simp [h1, h2] at this
  exact ⟨heq, heq ▸ hver.1, heq ▸ hver.2⟩

set_option maxRecDepth 100000 in
/-- Witness for C4: original content with three `validate` occurrences and
new content with one, on an unprotected path with innocuous content. -/
theorem c4_security_regression_warning_witness :
    checkChange wChangeC4 = checkSecurityRegression "validate validate validate" "validate" ∧
    (checkChange wChangeC4).safe = false ∧
    (checkChange wChangeC4).severity = some Severity.warning :=
  c4_security_regression_warning wChangeC4 "validate validate validate" "validate"
    rfl rfl rfl rfl rfl
    ⟨("validate", "validation"), by decide, by decide, by decide⟩

/-- C5: for a delete change, the validator's errors consist exactly of the
essential-configuration-file error (present iff the path is `package.json`
or `tsconfig.json`, regardless of every other field); a target missing on
disk contributes only a warning, so such a result can still be valid. -/
theorem c5_delete_validation (fs : String → Option String) (change : ProposedChange)
    (ctx : AgentContext) (hty : change.changeType = ChangeType.delete) :
    (validate fs change ctx).errors =
      (if change.filePath == "package.json" || change.filePath == "tsconfig.json"
       then ["Cannot delete essential configuration files"] else []) ∧
    (fs (pathJoin ctx.workingDir change.filePath) = none →
      ("File to delete does not exist: " ++ change.filePath) ∈ (validate fs change ctx).warnings) ∧
    (change.filePath = "package.json" → (validate fs change ctx).valid = false) ∧
    (change.filePath ≠ "package.json" → change.filePath ≠ "tsconfig.json" →
      (validate fs change ctx).valid = true) := by
  refine ⟨?_, ?_, ?_, ?_⟩
  · simp only [validate, hty]
  · intro hmiss
    simp [validate, hty, hmiss]
  · intro hpj
    simp [validate, hty, hpj]
  · intro h1 h2
    have b1 : (change.filePath == "package.json") = false := beq_eq_false_iff_ne.mpr h1
    have b2 : (change.filePath == "tsconfig.json") = false := beq_eq_false_iff_ne.mpr h2
    simp [validate, hty, b1, b2]

set_option maxRecDepth 100000 in
/-- Witness for C5: deleting `package.json` on an empty disk is invalid with
the configuration-file error and carries the missing-target warning. -/
theorem c5_delete_validation_witness :
    (validate wFsEmpty wChangeC5 wCtx).errors = ["Cannot delete essential configuration files"] ∧
    ("File to delete does not exist: package.json" ∈ (validate wFsEmpty wChangeC5 wCtx).warnings) ∧
    (validate wFsEmpty wChangeC5 wCtx).valid = false := by
  obtain ⟨he, hw, hv, _⟩ := c5_delete_validation wFsEmpty wChangeC5 wCtx rfl
  exact ⟨he.trans (by decide), hw rfl, hv rfl⟩


/-- The defining equation of `bracketsLoop` on a cons cell. -/
theorem bracketsLoop_cons (skip : Bool) (prev : Option Char) (st : BrState)
    (c : Char) (rest : List Char) :
    bracketsLoop skip prev st (c :: rest) =
      match bracketsStep skip st prev c rest.head? with
      | .fail msg => some msg
      | .cont skip' st' => bracketsLoop skip' (some c) st' rest := rfl

/-- A failing `closeStep` names the closer and the current line. -/
theorem closeStep_fail (st : BrState) (c : Char) (msg : String)
    (h : closeStep st c = .fail msg) : msg = unmatchedMsg c st.line := by
  unfold closeStep at h
  split at h
  · injection h with h2
    exact h2.symm
  · split at h
    · exact BrOut.noConfusion h
    · injection h with h2
      exact h2.symm

/-- Every immediate failure of one scanner step is an unmatched-closer
message at the current line. -/
theorem bracketsStep_fail_shape (skip : Bool) (st : BrState) (prev : Option Char)
    (c : Char) (next : Option Char) (msg : String)
    (h : bracketsStep skip st prev c next = .fail msg) :
    ∃ ch l, msg = unmatchedMsg ch l := by
  unfold bracketsStep at h
  by_cases h1 : skip = true
  · rw [if_pos h1] at h; exact BrOut.noConfusion h
  rw [if_neg h1] at h
  by_cases h2 : (c == '\n') = true
  · rw [if_pos h2] at h; exact BrOut.noConfusion h
  rw [if_neg h2] at h
  by_cases h3 : ((c == dquote || c == squote || c == btick) && !(prev == some '\\')) = true
  · rw [if_pos h3] at h
    by_cases h3a : (!st.inString && !st.inComment && !st.inMulti) = true
    · rw [if_pos h3a] at h; exact BrOut.noConfusion h
    rw [if_neg h3a] at h
    by_cases h3b : (st.inString && c == st.stringChar) = true
    · rw [if_pos h3b] at h; exact BrOut.noConfusion h
    · rw [if_neg h3b] at h; exact BrOut.noConfusion h
  rw [if_neg h3] at h
  by_cases h4 : st.inString = true
  · rw [if_pos h4] at h; exact BrOut.noConfusion h
  rw [if_neg h4] at h
  by_cases h5 : (c == '/' && next == some '/') = true
  · rw [if_pos h5] at h; exact BrOut.noConfusion h
  rw [if_neg h5] at h
  by_cases h6 : (c == '/' && next == some '*') = true
  · rw [if_pos h6] at h; exact BrOut.noConfusion h
  rw [if_neg h6] at h
  by_cases h7 : (c == '*' && next == some '/') = true
  · rw [if_pos h7] at h; exact BrOut.noConfusion h
  rw [if_neg h7] at h
  by_cases h8 : (st.inComment || st.inMulti) = true
  · rw [if_pos h8] at h; exact BrOut.noConfusion h
  rw [if_neg h8] at h
  by_cases h9 : isOpenBracket c = true
  · rw [if_pos h9] at h; exact BrOut.noConfusion h
  rw [if_neg h9] at h
  by_cases h10 : isCloseBracket c = true
  · rw [if_pos h10] at h
    exact ⟨c, st.line, closeStep_fail st c msg h⟩
  · rw [if_neg h10] at h; exact BrOut.noConfusion h

/-- Every failure message of the bracket scanner is either an unmatched-closer
message (produced immediately at the offending closer's line) or an
unclosed-opener message (produced at end of input from the innermost
unclosed opener). -/
theorem bracketsLoop_msg_shape (cs : List Char) : ∀ (skip : Bool) (prev : Option Char)
    (st : BrState) (msg : String),
    bracketsLoop skip prev st cs = some msg →
    (∃ ch l, msg = unmatchedMsg ch l) ∨ ∃ ch l, msg = unclosedMsg ch l := by
  induction cs with
  | nil =>
      intro skip prev st msg h
      simp only [bracketsLoop, bracketsEnd] at h
      split at h
      · exact Option.noConfusion h
      · right
        exact ⟨_, _, (Option.some_inj.mp h).symm⟩
  | cons c rest ih =>
      intro skip prev st msg h
      rw [bracketsLoop_cons] at h
      cases hstep : bracketsStep skip st prev c rest.head? with
      | fail m =>
          rw [hstep] at h
          have hm : m = msg := Option.some_inj.mp h
          exact Or.inl (hm ▸ bracketsStep_fail_shape skip st prev c rest.head? m hstep)
      | cont skip' st' =>
          rw [hstep] at h
          exact ih skip' (some c) st' msg h

set_option maxRecDepth 200000 in
/-- C6: for the unbalanced content `function f() { return (1; }` under each
scripting-language extension, `validateContentForExtension` reports an
error naming the unmatched bracket at line 1; and in general every failure
of the bracket scanner is an unmatched-closer message (the first closer
whose expected opener is not on top of the stack, or whose stack is empty)
or an unclosed-opener message naming the innermost unclosed opener's
character and line at end of input. -/
theorem c6_bracket_errors :
    (∀ ext ∈ ([".ts", ".tsx", ".js", ".jsx"] : List String),
       ("Unbalanced brackets: " ++ unmatchedMsg '\x7d' 1) ∈
         (validateContentForExtension wUnbalanced ext).1) ∧
    (∀ (content msg : String), checkBrackets content = some msg →
       (∃ ch l, msg = unmatchedMsg ch l) ∨ ∃ ch l, msg = unclosedMsg ch l) := by
  constructor
  · decide
  · intro content msg h
    exact bracketsLoop_msg_shape content.data false none _ msg h

set_option maxRecDepth 200000 in
/-- Witness for C6: the `.ts` extension instance, and the scanner's verdict
on the content `(`. -/
theorem c6_bracket_errors_witness :
    (("Unbalanced brackets: " ++ unmatchedMsg '\x7d' 1) ∈
       (validateContentForExtension wUnbalanced ".ts").1) ∧
    ((∃ ch l, "Unclosed '(' from line 1" = unmatchedMsg ch l) ∨
      ∃ ch l, "Unclosed '(' from line 1" = unclosedMsg ch l) :=
  ⟨c6_bracket_errors.1 ".ts" (by decide),
   c6_bracket_errors.2 "(" "Unclosed '(' from line 1" rfl⟩

/-- C7: `validateIssueForAutoFix` lowercases the concatenated title and body;
a first harmful-intent match yields safe=false with critical severity and
the matched rule's description, otherwise the absence of every
code-relatedness indicator yields safe=false with warning severity, and
otherwise it is safe; in particular the issue
("Remove authentication check", "please bypass the login validation")
is rejected. -/
theorem c7_issue_autofix :
    (∀ (title body : String) (desc : String),
       findHarmfulRequest harmfulRequestPatterns (lowerStr (title ++ " " ++ body)).data = some desc →
       validateIssueForAutoFix title body =
         { safe := false
           reason := some ("Potentially harmful request detected: " ++ desc)
           severity := some Severity.critical }) ∧
    (∀ (title body : String),
       findHarmfulRequest harmfulRequestPatterns (lowerStr (title ++ " " ++ body)).data = none →
       codeIndicators.any (fun r => rxTest r (lowerStr (title ++ " " ++ body)).data) = false →
       validateIssueForAutoFix title body =
         { safe := false
           reason := some "Issue does not appear to be code-related"
           severity := some Severity.warning }) ∧
    (∀ (title body : String),
       findHarmfulRequest harmfulRequestPatterns (lowerStr (title ++ " " ++ body)).data = none →
       codeIndicators.any (fun r => rxTest r (lowerStr (title ++ " " ++ body)).data) = true →
       validateIssueForAutoFix title body = { safe := true }) ∧
    (validateIssueForAutoFix "Remove authentication check"
      "please bypass the login validation").safe = false := by
  refine ⟨?_, ?_, ?_, ?_⟩
  · intro title body desc hf
    simp [validateIssueForAutoFix, hf]
  · intro title body hf hind
    simp [validateIssueForAutoFix, hf, hind]
  · intro title body hf hind
    simp [validateIssueForAutoFix, hf, hind]
  · rfl

set_option maxRecDepth 200000 in
/-- Witness for C7: concrete instances for the harmful-intent branch (the
first matching rule is `remove.*validation`) and the code-related branch. -/
theorem c7_issue_autofix_witness :
    validateIssueForAutoFix "Remove authentication check" "please bypass the login validation" =
      { safe := false
        reason := some "Potentially harmful request detected: Request to remove validation"
        severity := some Severity.critical } ∧
    validateIssueForAutoFix "Bug: function returns undefined"
      "calculateTotal() returns undefined on empty array" = { safe := true } :=
  ⟨c7_issue_autofix.1 "Remove authentication check" "please bypass the login validation"
     "Request to remove validation" rfl,
   c7_issue_autofix.2.2.1 "Bug: function returns undefined"
     "calculateTotal() returns undefined on empty array" rfl rfl⟩

/-- C8: an invocation that passes the safety check invokes the underlying
execute exactly once with exactly the supplied argument object, returns
exactly its result, and its only further effects are appending one
tool-call record and, when the result carries one, one proposed change. -/
theorem c8_safe_call_passthrough (name : String) (tool : ToolDef) (ctx : AgentContext)
    (st : SessionState) (args : Json) (f : Json → Json)
    (hsafe : (checkToolCall name args ctx).safe = true)
    (hex : tool.execute = some f) :
    wrappedExecute name tool ctx st args =
      { result := some (f args)
        state :=
          { toolCalls := st.toolCalls ++ [{ name := name, args := args, result := some (f args) }]
            proposedChanges := st.proposedChanges ++ extractProposedChange (some (f args)) }
        underlyingArgs := [args] } := by
  simp [wrappedExecute, hsafe, hex]

set_option maxRecDepth 200000 in
/-- Witness for C8: a safe `readFile` call through the echo capability. -/
theorem c8_safe_call_passthrough_witness :
    wrappedExecute "readFile" wToolEcho wCtx ⟨[], []⟩ wArgsPlain =
      { result := some (Json.obj [("ok", Json.bool true), ("echo", wArgsPlain)])
        state :=
          { toolCalls := [{ name := "readFile"
                            args := wArgsPlain
                            result := some (Json.obj [("ok", Json.bool true), ("echo", wArgsPlain)]) }]
            proposedChanges := [] }
        underlyingArgs := [wArgsPlain] } :=
  (c8_safe_call_passthrough "readFile" wToolEcho wCtx ⟨[], []⟩ wArgsPlain
    (fun a => Json.obj [("ok", Json.bool true), ("echo", a)]) rfl rfl).trans rfl

/-- Every wrapped invocation appends exactly one record to the call log. -/
theorem wrappedExecute_log_length (name : String) (tool : ToolDef) (ctx : AgentContext)
    (st : SessionState) (args : Json) :
    ((wrappedExecute name tool ctx st args).state).toolCalls.length =
      st.toolCalls.length + 1 := by
  cases hs : (checkToolCall name args ctx).safe with
  | false => simp [wrappedExecute, hs]
  | true =>
      cases hex : tool.execute with
      | none => simp [wrappedExecute, hs, hex]
      | some f => simp [wrappedExecute, hs, hex]

/-- Dispatching the calls of one step appends one record per call. -/
theorem dispatchCalls_log_length (tools : String → ToolDef) (ctx : AgentContext)
    (calls : List (String × Json)) : ∀ (st : SessionState),
    (dispatchCalls tools ctx calls st).toolCalls.length =
      st.toolCalls.length + calls.length := by
  induction calls with
  | nil => intro st; simp [dispatchCalls]
  | cons hd tl ih =>
      intro st
      calc (dispatchCalls tools ctx (hd :: tl) st).toolCalls.length
          = ((wrappedExecute hd.1 (tools hd.1) ctx st hd.2).state).toolCalls.length + tl.length := by
            simp [dispatchCalls, ih]
        _ = st.toolCalls.length + (hd :: tl).length := by
            rw [wrappedExecute_log_length]
            simp
            omega

/-- The call-log length of a loop run is bounded by the total number of
calls the plan requests in the steps within the budget. -/
theorem runLoopGo_log_le (tools : String → ToolDef) (ctx : AgentContext)
    (plan : Nat → List (String × Json)) : ∀ (fuel step : Nat) (st : SessionState),
    (runLoopGo tools ctx plan fuel step st).toolCalls.length ≤
      st.toolCalls.length + ((List.range' step fuel).map (fun i => (plan i).length)).sum := by
  intro fuel
  induction fuel with
  | zero => intro step st; simp [runLoopGo]
  | succ n ih =>
      intro step st
      rw [List.range'_succ]
      cases hp : plan step with
      | nil => simp [runLoopGo, hp]
      | cons c cs =>
          have hde : runLoopGo tools ctx plan (n + 1) step st =
              runLoopGo tools ctx plan n (step + 1) (dispatchCalls tools ctx (c :: cs) st) := by
            simp [runLoopGo, hp]
          rw [hde]
          calc (runLoopGo tools ctx plan n (step + 1) (dispatchCalls tools ctx (c :: cs) st)).toolCalls.length
              ≤ (dispatchCalls tools ctx (c :: cs) st).toolCalls.length +
                  ((List.range' (step + 1) n).map (fun i => (plan i).length)).sum := ih (step + 1) _
            _ = st.toolCalls.length + (c :: cs).length +
                  ((List.range' (step + 1) n).map (fun i => (plan i).length)).sum := by
                rw [dispatchCalls_log_length]
            _ ≤ st.toolCalls.length +
                  ((plan step).length + ((List.range' (step + 1) n).map (fun i => (plan i).length)).sum) := by
                rw [hp]; omega
          
/-- C9 (the loop is modelled from the spec, see `runLoopGo`): a session
performs at most the budgeted number of planning steps — the call log never
exceeds the calls requested within the budget — and with a budget of one
step the log holds exactly the calls issued in the first step, even when
the model always requests more. -/
theorem c9_step_budget (tools : String → ToolDef) (ctx : AgentContext)
    (plan : Nat → List (String × Json)) :
    (runAgentLoopModel 1 tools ctx plan).toolCalls.length = (plan 0).length ∧
    ∀ (budget : Nat),
      (runAgentLoopModel budget tools ctx plan).toolCalls.length ≤
        ((List.range budget).map (fun i => (plan i).length)).sum := by
  constructor
  · cases hp : plan 0 with
    | nil => simp [runAgentLoopModel, runLoopGo, hp]
    | cons c cs =>
        have hde : runAgentLoopModel 1 tools ctx plan =
            runLoopGo tools ctx plan 0 1 (dispatchCalls tools ctx (c :: cs) ⟨[], []⟩) := by
          simp [runAgentLoopModel, runLoopGo, hp]
        rw [hde]
        simp only [runLoopGo]
        rw [dispatchCalls_log_length]
        simp [hp]
  · intro budget
    have := runLoopGo_log_le tools ctx plan budget 0 ⟨[], []⟩
    simpa [runAgentLoopModel, List.range_eq_range'] using this

/-- C10: invariant of every wrapped invocation — the call log always gains
exactly the record of this invocation (denials included); a denied
invocation never contributes to the proposed-change list; a safe invocation
contributes exactly the `proposedChange` field of its result when the
result is an object carrying one, and nothing otherwise. -/
theorem c10_proposed_change_provenance (name : String) (tool : ToolDef)
    (ctx : AgentContext) (st : SessionState) (args : Json) :
    ((wrappedExecute name tool ctx st args).state).toolCalls =
      st.toolCalls ++ [{ name := name
                         args := args
                         result := (wrappedExecute name tool ctx st args).result }] ∧
    ((checkToolCall name args ctx).safe = false →
      ((wrappedExecute name tool ctx st args).state).proposedChanges = st.proposedChanges) ∧
    ((checkToolCall name args ctx).safe = true →
      ((wrappedExecute name tool ctx st args).state).proposedChanges =
        st.proposedChanges ++ extractProposedChange (wrappedExecute name tool ctx st args).result) := by
  refine ⟨?_, ?_, ?_⟩
  · cases hs : (checkToolCall name args ctx).safe with
    | false => simp [wrappedExecute, hs]
    | true =>
        cases hex : tool.execute with
        | none => simp [wrappedExecute, hs, hex]
        | some f => simp [wrappedExecute, hs, hex]
  · intro hs
    simp [wrappedExecute, hs]
  · intro hs
    cases hex : tool.execute with
    | none => simp [wrappedExecute, hs, hex, extractProposedChange]
    | some f => simp [wrappedExecute, hs, hex]

set_option maxRecDepth 200000 in
/-- Witness for C10: a safe call whose result carries a `proposedChange`
contributes exactly that value; a denied call contributes nothing. -/
theorem c10_proposed_change_provenance_witness :
    ((wrappedExecute "readFile" wToolPC wCtx ⟨[], []⟩ wArgsPlain).state).proposedChanges =
      [Json.str "pc"] ∧
    ((wrappedExecute "writeFile" wToolEcho wCtx ⟨[], []⟩ wArgsEnv).state).proposedChanges = [] := by
  constructor
  · have h := (c10_proposed_change_provenance "readFile" wToolPC wCtx ⟨[], []⟩ wArgsPlain).2.2 rfl
    exact h.trans rfl
  · have h := (c10_proposed_change_provenance "writeFile" wToolEcho wCtx ⟨[], []⟩ wArgsEnv).2.1 rfl
    exact h.trans rfl
